import Mathlib

/-!
Verification development for the asset-check tool (`src/run.js`, which bundles
the CLI entry point, `index.js` and `schema.js`).

The development shallowly embeds:
* the JSON data model the tool operates on;
* the dynamic JavaScript semantics the code relies on (property lookup,
  truthiness, the `in` operator, `.length` access, loose string equality,
  `Array.prototype.indexOf` / `String.prototype.indexOf`, `Object.keys`);
* the jsonschema validation of the five fixed schemas of `schema.js`
  (`/Base`, `/BaseEntity`, `/RelationEntity`, `/WebTarget`, `/AndroidTarget`),
  following the jsonschema library semantics for exactly the keywords those
  schemas use (`type`, `items`, `properties`, `$ref`, `oneOf`, boolean
  `required`, `enum`, `additionalProperties: false`);
* `AssetCheck.handleParseJson`, `AssetCheck.displayAssociations`, the entry
  interpreter classes (`AssetEntry`, `AssetRelation`, `AssetTarget`),
  `AssetFile`'s constructor and `getFilename`, and `AssetFile.getLocal`.
-/

/-- A JSON value as produced by `JSON.parse`.  Numbers are modelled as
integers: none of the verified behaviour depends on the numeric value of a
JSON number beyond it being a number (only its dynamic type matters to the
schema validator and to the entry interpreter).  Objects are ordered lists of
key/value pairs; `JSON.parse` never produces duplicate keys. -/
inductive Json where
  | null
  | bool (b : Bool)
  | num (n : Int)
  | str (s : String)
  | arr (elems : List Json)
  | obj (fields : List (String × Json))

/-- Property lookup on a JavaScript object, `fields[key]`; `none` is the
JavaScript value `undefined`. -/
def lookupField (fields : List (String × Json)) (key : String) : Option Json :=
  (fields.find? (fun f => f.1 == key)).map (fun f => f.2)

mutual

/-- How one element renders inside `Array.prototype.join` (the default
`toString` of a JavaScript array): `null` and `undefined` render as the empty
string, nested arrays render as their own join, and plain objects render as
the string `[object Object]`. -/
def jsArrElemToString : Json → String
  | Json.null => ""
  | Json.bool b => cond b "true" "false"
  | Json.num n => toString n
  | Json.str s => s
  | Json.obj _ => "[object Object]"
  | Json.arr l => jsArrJoin l

/-- The comma join performed by `Array.prototype.toString`. -/
def jsArrJoin : List Json → String
  | [] => ""
  | [x] => jsArrElemToString x
  | x :: y :: rest => jsArrElemToString x ++ "," ++ jsArrJoin (y :: rest)

end

/-- JavaScript loose equality `v == lit` where `lit` is a non-numeric string
literal (the code only compares against the literal `"web"`):
strings compare directly; arrays and objects are converted to a primitive
string first; `null`, booleans and numbers never equal a non-numeric string
(the string side coerces to `NaN`). -/
def jsLooseEqStr (v : Json) (lit : String) : Bool :=
  match v with
  | Json.str s => s == lit
  | Json.arr l => jsArrJoin l == lit
  | Json.obj _ => "[object Object]" == lit
  | Json.num _ => false
  | Json.bool _ => false
  | Json.null => false

/-- JavaScript truthiness of a value. -/
def jsTruthy : Json → Bool
  | Json.null => false
  | Json.bool b => b
  | Json.num n => n != 0
  | Json.str s => s.length != 0
  | Json.arr _ => true
  | Json.obj _ => true

/-- JavaScript numeric coercion of a value, `none` standing for `NaN`.
Strings are trimmed; an empty trimmed string coerces to `0`, an integer
literal to its value, anything else to `NaN` (fractional literals cannot
arise since numbers are modelled as integers). -/
def jsToNumber : Json → Option Int
  | Json.null => some 0
  | Json.bool b => some (cond b 1 0)
  | Json.num n => some n
  | Json.str s => if s.trim = "" then some 0 else s.trim.toInt?
  | Json.arr l => let s := jsArrJoin l; if s.trim = "" then some 0 else s.trim.toInt?
  | Json.obj _ => none

/-- The JavaScript comparison `v < 1` applied to a possibly-`undefined`
value: `undefined < 1` is `false` (`NaN` comparison), otherwise the value is
coerced to a number. -/
def jsLtOne (v : Option Json) : Bool :=
  match v with
  | none => false
  | some j =>
    match jsToNumber j with
    | some n => decide (n < 1)
    | none => false

/-- The `data.length < 1` check of the `AssetRelation` constructor
(`run.js:462`): arrays and strings expose their real `length`; reading
`length` from `null` throws a `TypeError`; numbers and booleans have no
`length` property (`undefined < 1` is `false`); a plain object may carry an
own `length` field. -/
def relLengthLtOne : Json → Except String Bool
  | Json.null => Except.error "TypeError: Cannot read properties of null"
  | Json.arr l => Except.ok (decide (l.length < 1))
  | Json.str s => Except.ok (decide (s.length < 1))
  | Json.obj fields => Except.ok (jsLtOne (lookupField fields "length"))
  | Json.num _ => Except.ok false
  | Json.bool _ => Except.ok false

/-- JavaScript `String.prototype.startsWith`. -/
def strStartsWith (s pre : String) : Bool :=
  pre.toList.isPrefixOf s.toList

/-- Whether `tok` occurs as a contiguous run inside `s`
(`String.prototype.indexOf(tok) >= 0`). -/
def strOccurs (tok : List Char) : List Char → Bool
  | [] => tok.isEmpty
  | c :: rest => tok.isPrefixOf (c :: rest) || strOccurs tok rest

/-- Strict equality of a JSON value with a string literal, as used by
`Array.prototype.indexOf` and by the jsonschema `enum` keyword
(`deepCompareStrict` against a string). -/
def jsonIsStr (v : Json) (lit : String) : Bool :=
  match v with
  | Json.str s => s == lit
  | _ => false

/-- The number of keys `Object.keys(v)` yields (`run.js:190`):
a `TypeError` for `null` (`ToObject(null)` throws), the number of fields for
an object, the number of elements for an array, the number of characters for
a string, and zero for the remaining primitives. -/
def jsObjectKeysCount : Json → Except String Nat
  | Json.null => Except.error "TypeError: Cannot convert undefined or null to object"
  | Json.obj fields => Except.ok fields.length
  | Json.arr l => Except.ok l.length
  | Json.str s => Except.ok s.length
  | Json.num _ => Except.ok 0
  | Json.bool _ => Except.ok 0

/-- String conversion of the `SyntaxError` thrown by `JSON.parse`, as
performed by the concatenation at `run.js:188`. -/
def jsErrorString (m : String) : String := "SyntaxError: " ++ m

/-! ## The jsonschema validator on the five schemas of `schema.js`

The jsonschema library renders error locations as property-path strings
rooted at `instance`; we keep the path structured (a list of steps) and
render it to the same string at display time. -/

/-- One step of a jsonschema property path. -/
inductive PathStep where
  | idx (i : Nat)
  | prop (name : String)
deriving DecidableEq

/-- One collected validation error: a property path and a message
(the `(property, message)` pair of a jsonschema `ValidationError`). -/
structure VError where
  path : List PathStep
  message : String
deriving DecidableEq

/-- Rendering of one path step, following the library's `makeSuffix`:
numeric keys render as `[i]`, identifier-like property names as `.name`
(all property names of these schemas are identifier-like). -/
def renderStep : PathStep → String
  | PathStep.idx i => "[" ++ toString i ++ "]"
  | PathStep.prop n => "." ++ n

/-- Rendering of a full property path, rooted at `instance`. -/
def renderPath (p : List PathStep) : String :=
  "instance" ++ String.join (p.map renderStep)

/-- One displayed error line, `err.property + ": " + err.message`
(`run.js:197`). -/
def renderVError (e : VError) : String :=
  renderPath e.path ++ ": " ++ e.message

/-- The per-element part of an `items: {type: "string"}` keyword (used by
`/RelationEntity` and by the `sha256_cert_fingerprints` property of
`/AndroidTarget`): each element must be of type string, errors reported at
the element's indexed path. -/
def validateStrItems (pre : List PathStep) : List Json → Nat → List VError
  | [], _ => []
  | e :: rest, i =>
    (match e with
     | Json.str _ => []
     | _ => [⟨pre ++ [PathStep.idx i], "is not of a type(s) string"⟩])
    ++ validateStrItems pre rest (i + 1)

/-- Validation against `SCHEMA_WEB` (`/WebTarget`, `run.js:629`):
`type: object`; property `namespace` of type string, `enum ["web"]`,
required; property `site` of type string, required; no additional
properties.  Attributes run in schema key order, properties in declaration
order; keywords other than boolean `required` skip an `undefined` value. -/
def validateWebTarget (v : Json) (pre : List PathStep) : List VError :=
  (match v with
   | Json.obj _ => []
   | _ => [⟨pre, "is not of a type(s) object"⟩])
  ++ (match v with
      | Json.obj fields =>
        (match lookupField fields "namespace" with
         | some ns =>
           (match ns with
            | Json.str _ => []
            | _ => [⟨pre ++ [PathStep.prop "namespace"], "is not of a type(s) string"⟩])
           ++ (if jsonIsStr ns "web" then []
               else [⟨pre ++ [PathStep.prop "namespace"], "is not one of enum values: web"⟩])
         | none => [⟨pre ++ [PathStep.prop "namespace"], "is required"⟩])
        ++ (match lookupField fields "site" with
            | some s =>
              (match s with
               | Json.str _ => []
               | _ => [⟨pre ++ [PathStep.prop "site"], "is not of a type(s) string"⟩])
            | none => [⟨pre ++ [PathStep.prop "site"], "is required"⟩])
        ++ (fields.filter (fun f => !(f.1 == "namespace" || f.1 == "site"))).map
             (fun f => ⟨pre, "additionalProperty " ++ f.1 ++ " is not allowed"⟩)
      | _ => [])

/-- Validation against `SCHEMA_ANDROID` (`/AndroidTarget`, `run.js:647`):
`type: object`; `namespace` string with `enum ["android_app"]`, required;
`sha256_cert_fingerprints` array of strings, required; `package_name`
string, required; no additional properties. -/
def validateAndroidTarget (v : Json) (pre : List PathStep) : List VError :=
  (match v with
   | Json.obj _ => []
   | _ => [⟨pre, "is not of a type(s) object"⟩])
  ++ (match v with
      | Json.obj fields =>
        (match lookupField fields "namespace" with
         | some ns =>
           (match ns with
            | Json.str _ => []
            | _ => [⟨pre ++ [PathStep.prop "namespace"], "is not of a type(s) string"⟩])
           ++ (if jsonIsStr ns "android_app" then []
               else [⟨pre ++ [PathStep.prop "namespace"], "is not one of enum values: android_app"⟩])
         | none => [⟨pre ++ [PathStep.prop "namespace"], "is required"⟩])
        ++ (match lookupField fields "sha256_cert_fingerprints" with
            | some fp =>
              (match fp with
               | Json.arr _ => []
               | _ => [⟨pre ++ [PathStep.prop "sha256_cert_fingerprints"], "is not of a type(s) array"⟩])
              ++ (match fp with
                  | Json.arr l => validateStrItems (pre ++ [PathStep.prop "sha256_cert_fingerprints"]) l 0
                  | _ => [])
            | none => [⟨pre ++ [PathStep.prop "sha256_cert_fingerprints"], "is required"⟩])
        ++ (match lookupField fields "package_name" with
            | some pn =>
              (match pn with
               | Json.str _ => []
               | _ => [⟨pre ++ [PathStep.prop "package_name"], "is not of a type(s) string"⟩])
            | none => [⟨pre ++ [PathStep.prop "package_name"], "is required"⟩])
        ++ (fields.filter
              (fun f => !(f.1 == "namespace" || f.1 == "sha256_cert_fingerprints" || f.1 == "package_name"))).map
             (fun f => ⟨pre, "additionalProperty " ++ f.1 ++ " is not allowed"⟩)
      | _ => [])

/-- Validation against `SCHEMA_RELATION` (`/RelationEntity`, `run.js:622`):
`type: array`, `items` of type string.  The schema carries no `minItems`
keyword, so an empty array is accepted. -/
def validateRelationEntity (v : Json) (pre : List PathStep) : List VError :=
  (match v with
   | Json.arr _ => []
   | _ => [⟨pre, "is not of a type(s) array"⟩])
  ++ (match v with
      | Json.arr l => validateStrItems pre l 0
      | _ => [])

/-- Whether a value passes `/WebTarget` (jsonschema `testSchemaNoThrow`:
valid exactly when the error list is empty). -/
def matchesWeb (v : Json) : Bool := (validateWebTarget v []).isEmpty

/-- Whether a value passes `/AndroidTarget`. -/
def matchesAndroid (v : Json) : Bool := (validateAndroidTarget v []).isEmpty

/-- How many of the two `oneOf` alternatives of `SCHEMA_ENTITY`'s `target`
property a value satisfies. -/
def oneOfTargetCount (t : Json) : Nat :=
  (if matchesWeb t then 1 else 0) + (if matchesAndroid t then 1 else 0)

/-- Validation against `SCHEMA_ENTITY` (`/BaseEntity`, `run.js:603`):
`type: object`, then the `properties` keyword over `relation` and `target`.

The `relation` property subschema is `{$ref: "/RelationEntity", required:
true}`; the jsonschema library resolves a `$ref` by replacing the whole
subschema, so the sibling `required: true` is ignored and a missing
`relation` produces no error (all keywords of `/RelationEntity` skip an
`undefined` value).

The `target` property subschema is `{oneOf: [...], required: true}`; on a
present value `oneOf` adds exactly one error (at the property's path) when
the value matches zero or both alternatives, with sub-errors only counted,
not collected (`nestedErrors` is off); on a missing value `oneOf` skips and
`required: true` fires. -/
def validateBaseEntity (v : Json) (pre : List PathStep) : List VError :=
  (match v with
   | Json.obj _ => []
   | _ => [⟨pre, "is not of a type(s) object"⟩])
  ++ (match v with
      | Json.obj fields =>
        (match lookupField fields "relation" with
         | some r => validateRelationEntity r (pre ++ [PathStep.prop "relation"])
         | none => [])
        ++ (match lookupField fields "target" with
            | some t =>
              if oneOfTargetCount t != 1 then
                [⟨pre ++ [PathStep.prop "target"],
                  "is not exactly one from [subschema 0],[subschema 1]"⟩]
              else []
            | none => [⟨pre ++ [PathStep.prop "target"], "is required"⟩])
      | _ => [])

/-- The `items` keyword of `SCHEMA_BASE`: each element of the top-level
array is validated against `/BaseEntity` at path `instance[i]`. -/
def validateBaseItems (pre : List PathStep) : List Json → Nat → List VError
  | [], _ => []
  | v :: rest, i =>
    validateBaseEntity v (pre ++ [PathStep.idx i]) ++ validateBaseItems pre rest (i + 1)

/-- Validation against `SCHEMA_BASE` (`/Base`, `run.js:596`), the schema
`handleParseJson` validates against: `type: array` with `/BaseEntity`
items. -/
def validateBase (v : Json) (pre : List PathStep) : List VError :=
  (match v with
   | Json.arr _ => []
   | _ => [⟨pre, "is not of a type(s) array"⟩])
  ++ (match v with
      | Json.arr l => validateBaseItems pre l 0
      | _ => [])

/-! ## handleParseJson (`run.js:173` to `run.js:202`) -/

/-- The parse-failure signature `handleParseJson` tests for with
`err.message.startsWith` (`run.js:182`). -/
def bomSignature : String := "Unexpected token \uFEFF in JSON at position 0"

/-- The byte-order-mark error message (`run.js:184`). -/
def bomMessage : String := "File must be UTF-8 encoded _without_ a byte order mark (BOM)"

/-- Which continuation `handleParseJson` transfers control to; `throws`
records an exception escaping `handleParseJson` itself (nothing after the
`JSON.parse` call is guarded by the `try`). -/
inductive HPJOutcome where
  | succeed (obj : Json)
  | fail (msg : String)
  | throws (msg : String)

/-- The observable behaviour of one `handleParseJson` call: the chosen
continuation together with the error lines printed through `this.err`
(one `<path>: <message>` line per schema error). -/
structure HPJResult where
  outcome : HPJOutcome
  errLines : List String

/-- Embedding of `AssetCheck.handleParseJson` (`run.js:173`).  Its input is
the outcome of the unguarded platform call `JSON.parse(data)`: either a
parsed value or the message of the thrown `SyntaxError`.  On a parse error,
a message starting with the BOM signature selects the specific BOM failure,
any other message the generic one wrapping the stringified error.  On a
parsed value, fewer than one `Object.keys` entry fails with
`No data in file.` before validation; otherwise the value is validated
against `/Base`, all collected errors are printed as `<path>: <message>`
lines followed by the `Errors validating schema` failure, and an error-free
validation invokes the success continuation with the parsed value. -/
def handleParseJson (parsed : Except String Json) : HPJResult :=
  match parsed with
  | Except.error m =>
    if strStartsWith m bomSignature then
      ⟨HPJOutcome.fail bomMessage, []⟩
    else
      ⟨HPJOutcome.fail ("Unable to parse json" ++ jsErrorString m), []⟩
  | Except.ok obj =>
    match jsObjectKeysCount obj with
    | Except.error tm => ⟨HPJOutcome.throws tm, []⟩
    | Except.ok n =>
      if n < 1 then
        ⟨HPJOutcome.fail "No data in file.", []⟩
      else if 0 < (validateBase obj []).length then
        ⟨HPJOutcome.fail "Errors validating schema", (validateBase obj []).map renderVError⟩
      else
        ⟨HPJOutcome.succeed obj, []⟩

/-! ## The entry interpreter
(`AssetEntry`, `AssetRelation`, `AssetTarget`, `run.js:412` to `run.js:572`)
and the per-entry body of `displayAssociations` (`run.js:213` to
`run.js:232`).

Every exception thrown while interpreting one entry is modelled as an
`Except.error` carrying the JavaScript string rendering of the thrown value
(`"Error: <message>"` for `throw Error(...)`, a representative
`"TypeError: ..."` text for the dynamic type errors); `displayAssociations`
catches it, so only the resulting skip and the logged text matter. -/

/-- What one successfully interpreted entry contributes: whether it went
through the web branch (`target.isWeb()`), the value pushed into the buckets
(the site for the web branch, `package_name` for the android branch), and
the two relation membership tests. -/
structure Interp where
  isWeb : Bool
  pushed : Json
  creds : Bool
  links : Bool

/-- The `this.data.indexOf(token) >= 0` test of `AssetRelation`
(`run.js:473` and `run.js:484`): on an array, `Array.prototype.indexOf`
finds an element strictly equal to the token; on a string,
`String.prototype.indexOf` performs a substring search; any other receiver
has no `indexOf` method and throws. -/
def relHasToken (rel : Json) (token : String) : Except String Bool :=
  match rel with
  | Json.arr l => Except.ok (l.any (fun e => jsonIsStr e token))
  | Json.str s => Except.ok (strOccurs token.toList s.toList)
  | _ => Except.error "TypeError: this.data.indexOf is not a function"

/-- The android push of the loop body (`run.js:225` to `run.js:231`):
`target.getAndroidData()` first (a missing `sha256_cert_fingerprints`
throws, then a missing `package_name` throws), then `package_name` is
pushed, guarded by the two relation membership tests. -/
def interpretAndroidBranch (rel : Json) (tfields : List (String × Json)) :
    Except String Interp :=
  if (lookupField tfields "sha256_cert_fingerprints").isNone then
    Except.error "Error: Missing android fingerprint from target"
  else if (lookupField tfields "package_name").isNone then
    Except.error "Error: Missing android package name from target"
  else
    match relHasToken rel "delegate_permission/common.get_login_creds",
          relHasToken rel "delegate_permission/common.handle_all_urls" with
    | Except.ok creds, Except.ok links =>
      Except.ok ⟨false, (lookupField tfields "package_name").getD Json.null, creds, links⟩
    | Except.error tm, _ => Except.error tm
    | _, Except.error tm => Except.error tm

/-- The branch of the loop body taken once the `AssetTarget` view has been
constructed (`tfields` are the target's fields, which do contain a
`namespace` key): `target.isWeb()` decides between the web push and the
android push (`run.js:217` to `run.js:231`).  The two relation tests either
both succeed or both throw (they run on the same receiver), so their
combined evaluation is a single match. -/
def interpretTargetBranch (rel : Json) (tfields : List (String × Json)) :
    Except String Interp :=
  if jsLooseEqStr ((lookupField tfields "namespace").getD Json.null) "web" then
    match lookupField tfields "site" with
    | none => Except.error "Error: Missing site from target"
    | some site =>
      if jsTruthy site then
        match relHasToken rel "delegate_permission/common.get_login_creds",
              relHasToken rel "delegate_permission/common.handle_all_urls" with
        | Except.ok creds, Except.ok links => Except.ok ⟨true, site, creds, links⟩
        | Except.error tm, _ => Except.error tm
        | _, Except.error tm => Except.error tm
      else interpretAndroidBranch rel tfields
  else interpretAndroidBranch rel tfields

/-- Interpretation of one entry whose value is an object (the only case in
which the `AssetEntry` constructor can get past `"relation" in data`):
a missing `relation` key throws `No relation defined`; the `AssetRelation`
constructor throws `No relation data` on `data.length < 1` (or propagates
the `TypeError` of reading `length` from `null`); a missing `target` key
throws `No target defined`; the `AssetTarget` constructor checks
`"namespace" in data` (throwing `Missing namespace in target` for objects
without the key and for arrays, a `TypeError` for primitive targets);
then control passes to the web/android branch. -/
def interpretEntryFields (fields : List (String × Json)) : Except String Interp :=
  match lookupField fields "relation" with
  | none => Except.error "Error: No relation defined"
  | some rel =>
    match relLengthLtOne rel with
    | Except.error tm => Except.error tm
    | Except.ok true => Except.error "Error: No relation data"
    | Except.ok false =>
      match lookupField fields "target" with
      | none => Except.error "Error: No target defined"
      | some tgt =>
        match tgt with
        | Json.obj tfields =>
          if (lookupField tfields "namespace").isSome then
            interpretTargetBranch rel tfields
          else Except.error "Error: Missing namespace in target"
        | Json.arr _ => Except.error "Error: Missing namespace in target"
        | _ => Except.error "TypeError: Cannot use in operator to search for namespace"

/-- Interpretation of one entry, mirroring `new AssetEntry(entry)` followed
by the branch of the `displayAssociations` loop body.  The `AssetEntry`
constructor starts with `"relation" in data`: a `TypeError` on a primitive
receiver, always false on an array (so arrays throw `No relation defined`);
objects continue with `interpretEntryFields`. -/
def interpretEntry (entry : Json) : Except String Interp :=
  match entry with
  | Json.obj fields => interpretEntryFields fields
  | Json.arr _ => Except.error "Error: No relation defined"
  | _ => Except.error "TypeError: Cannot use in operator to search for relation"

/-! ## The association aggregator (`displayAssociations`, `run.js:209`) -/

/-- The four mutable buckets of `displayAssociations`: `creds.web`,
`creds.android`, `links.web`, `links.android`. -/
structure Buckets where
  credsWeb : List Json
  credsAndroid : List Json
  linksWeb : List Json
  linksAndroid : List Json

/-- The initial, empty buckets. -/
def emptyBuckets : Buckets := ⟨[], [], [], []⟩

/-- The bucket pushes of one successfully interpreted entry. -/
def bucketsOfInterp (it : Interp) : Buckets :=
  if it.isWeb then
    ⟨if it.creds then [it.pushed] else [], [],
     if it.links then [it.pushed] else [], []⟩
  else
    ⟨[], if it.creds then [it.pushed] else [],
     [], if it.links then [it.pushed] else []⟩

/-- What one loop iteration of `displayAssociations` contributes: the
bucket pushes on success, or no pushes and one `[entry] `-prefixed error
line when the thrown exception is caught (`run.js:233` to `run.js:236`). -/
def entryContribution (e : Json) : Buckets × List String :=
  match interpretEntry e with
  | Except.ok it => (bucketsOfInterp it, [])
  | Except.error m => (emptyBuckets, ["[entry] " ++ m])

/-- Concatenation of loop effects, componentwise and in iteration order. -/
def combineEffects (a b : Buckets × List String) : Buckets × List String :=
  (⟨a.1.credsWeb ++ b.1.credsWeb, a.1.credsAndroid ++ b.1.credsAndroid,
    a.1.linksWeb ++ b.1.linksWeb, a.1.linksAndroid ++ b.1.linksAndroid⟩,
   a.2 ++ b.2)

/-- The full bucket-filling loop of `displayAssociations` over the
entries in iteration order (`Object.keys` order), together with the
`[entry] ` error lines it logs. -/
def processEntries : List Json → Buckets × List String
  | [] => (emptyBuckets, [])
  | e :: rest => combineEffects (entryContribution e) (processEntries rest)

/-- One displayed association block of `displayAssociations`
(`run.js:238` to `run.js:262`).  `appLinksCurrent` is the android-only
App Links block: its first argument is `this.hostname` (`none` renders the
generic `Current website` label; the field is initialised to `false` in the
constructor and never assigned, so in every actual run it is `none`). -/
inductive ReportItem where
  | smartLock (websites apps : List Json)
  | appLinks (websites apps : List Json)
  | appLinksCurrent (hostname : Option String) (apps : List Json)
  | noRelations

/-- The presentation decision of `displayAssociations` over the filled
buckets: a Smart Lock block when both credential buckets are non-empty; an
App Links block with both lists when both link buckets are non-empty, else
an android-only App Links block when the android link bucket is non-empty;
and the `No relations to display` message exactly when no block was
displayed (the `displayed` flag stayed false). -/
def decideReport (hostname : Option String) (b : Buckets) : List ReportItem :=
  (if 0 < b.credsWeb.length ∧ 0 < b.credsAndroid.length then
    [ReportItem.smartLock b.credsWeb b.credsAndroid]
   else []) ++
  (if 0 < b.linksWeb.length ∧ 0 < b.linksAndroid.length then
    [ReportItem.appLinks b.linksWeb b.linksAndroid]
   else if 0 < b.linksAndroid.length then
    [ReportItem.appLinksCurrent hostname b.linksAndroid]
   else []) ++
  (if (0 < b.credsWeb.length ∧ 0 < b.credsAndroid.length) ∨
      (0 < b.linksWeb.length ∧ 0 < b.linksAndroid.length) ∨
      0 < b.linksAndroid.length then
    []
   else [ReportItem.noRelations])

/-- Embedding of `AssetCheck.displayAssociations` (`run.js:209`): fill the
buckets entry by entry (skipping and logging failing entries), then decide
the report. -/
def displayAssociations (hostname : Option String) (entries : List Json) :
    List ReportItem × List String :=
  (decideReport hostname (processEntries entries).1, (processEntries entries).2)

/-! ## AssetFile (`run.js:331` to `run.js:405`) -/

/-- Embedding of the `AssetFile` constructor (`run.js:338`) composed with
`getFilename` (`run.js:351`): the constructor throws `Empty filename` on an
empty string and otherwise stores the filename unchanged
(`this.filename = filename`); `getFilename` returns the stored string. -/
def assetFileGetFilename (filename : String) : Except String String :=
  if filename.length < 1 then Except.error "Empty filename"
  else Except.ok filename

/-- The outcome of the `fs.readFileSync` call inside `getLocal`
(`run.js:395`): the file contents, or the thrown error. -/
inductive LocalReadResult where
  | ok (contents : String)
  | error (e : String)

/-- One callback invocation made by `getLocal`. -/
inductive HandlerCall where
  | success (contents : String)
  | fail (err : String)

/-- Embedding of `AssetFile.getLocal` (`run.js:392`), recording the
sequence of callback invocations it performs (assuming the callbacks return
normally): when the read succeeds with non-empty contents it calls
`success(contents)`, then falls through to set `err = "No file contents"`
and unconditionally calls `fail(err)`; empty contents skip the success
call; a read error calls `fail` with the caught error. -/
def getLocal (read : LocalReadResult) : List HandlerCall :=
  match read with
  | LocalReadResult.ok contents =>
    (if 0 < contents.length then [HandlerCall.success contents] else [])
      ++ [HandlerCall.fail "No file contents"]
  | LocalReadResult.error e => [HandlerCall.fail e]

/-! ## Theorems -/

/-- C3: Evaluation of the reference-normalization claim at its failing
inputs.  `AssetFile` stores and returns the reference unchanged: an `http`
scheme is not rewritten to `https`, and a reference with no path segment is
not suffixed with `/.well-known/assetlinks.json` — the behaviour asserted
by `test/index.js` (the `enforces https protocol` and
`should rewrite missing paths` tests) does not hold on the code. -/
theorem assetFile_getFilename_no_normalization :
    assetFileGetFilename "http://www.example.com/" = Except.ok "http://www.example.com/" ∧
    "http://www.example.com/" ≠ "https://www.example.com/.well-known/assetlinks.json" ∧
    assetFileGetFilename "https://www.google.com" = Except.ok "https://www.google.com" ∧
    "https://www.google.com" ≠ "https://www.google.com/.well-known/assetlinks.json" :=
  ⟨rfl, by decide, rfl, by decide⟩

/-- C5: Evaluation of `getLocal` at the failing input.  On a read with
non-empty contents it invokes the success handler and then also the failure
handler with `No file contents` (there is no early return after
`success(contents)` at `run.js:397`), so both handlers fire; only the
empty-contents and read-error paths invoke exactly one handler. -/
theorem getLocal_calls_both_handlers :
    getLocal (LocalReadResult.ok "[]") =
      [HandlerCall.success "[]", HandlerCall.fail "No file contents"] ∧
    getLocal (LocalReadResult.ok "") = [HandlerCall.fail "No file contents"] ∧
    getLocal (LocalReadResult.error "ENOENT") = [HandlerCall.fail "ENOENT"] :=
  ⟨rfl, rfl, rfl⟩

/-- C9 counterexample: the empty-document failure message of
`handleParseJson` is `No data in file.` — with a trailing period
(`run.js:191`) — so the claim's exact message `No data in file` is not the
one produced. -/
theorem no_data_message_has_period :
    (handleParseJson (Except.ok (Json.arr []))).outcome ≠
      HPJOutcome.fail "No data in file" := by
  intro h
  exact absurd (HPJOutcome.fail.inj h) (by decide)

/-- C9 (amended): an input parsing to an object or array with zero
top-level keys/entries fails with the message `No data in file.` (trailing
period), with no schema-error lines printed (validation has not run), and
this failure kind is distinct from the schema-failure message. -/
theorem empty_document_no_data :
    handleParseJson (Except.ok (Json.obj [])) = ⟨HPJOutcome.fail "No data in file.", []⟩ ∧
    handleParseJson (Except.ok (Json.arr [])) = ⟨HPJOutcome.fail "No data in file.", []⟩ ∧
    "No data in file." ≠ "Errors validating schema" :=
  ⟨rfl, rfl, by decide⟩

/-- C10 counterexample: an input whose JSON value is `null` (the input text
`null`) makes `handleParseJson` itself throw — `Object.keys(null)` at
`run.js:190` raises a `TypeError` outside the `try` block — so neither
continuation is invoked. -/
theorem handleParseJson_throws_on_null :
    (handleParseJson (Except.ok Json.null)).outcome =
      HPJOutcome.throws "TypeError: Cannot convert undefined or null to object" := rfl

/-- C10 (amended): for every input other than one parsing to `null`,
`handleParseJson` transfers control to exactly one of its two
continuations and does not throw; in particular numbers, booleans and bare
strings are handled (they fail, but without an uncaught exception). -/
theorem handleParseJson_single_continuation (parsed : Except String Json)
    (h : parsed ≠ Except.ok Json.null) :
    (∃ o, (handleParseJson parsed).outcome = HPJOutcome.succeed o) ∨
    (∃ m, (handleParseJson parsed).outcome = HPJOutcome.fail m) := by
  match parsed with
  | Except.error m =>
    by_cases hb : strStartsWith m bomSignature
    · exact Or.inr ⟨bomMessage, by simp [handleParseJson, hb]⟩
    · exact Or.inr ⟨"Unable to parse json" ++ jsErrorString m, by simp [handleParseJson, hb]⟩
  | Except.ok v =>
    cases v with
    | null => exact absurd rfl h
    | bool b => exact Or.inr ⟨"No data in file.", rfl⟩
    | num n => exact Or.inr ⟨"No data in file.", rfl⟩
    | str s =>
      simp only [handleParseJson, jsObjectKeysCount]
      split
      · exact Or.inr ⟨_, rfl⟩
      · split
        · exact Or.inr ⟨_, rfl⟩
        · exact Or.inl ⟨_, rfl⟩
    | arr l =>
      simp only [handleParseJson, jsObjectKeysCount]
      split
      · exact Or.inr ⟨_, rfl⟩
      · split
        · exact Or.inr ⟨_, rfl⟩
        · exact Or.inl ⟨_, rfl⟩
    | obj fs =>
      simp only [handleParseJson, jsObjectKeysCount]
      split
      · exact Or.inr ⟨_, rfl⟩
      · split
        · exact Or.inr ⟨_, rfl⟩
        · exact Or.inl ⟨_, rfl⟩

/-- C10 witness: the amended theorem applied at the concrete input `true`,
which is not `null` and is dispatched to the failure continuation. -/
theorem handleParseJson_single_continuation_witness :
    (∃ o, (handleParseJson (Except.ok (Json.bool true))).outcome = HPJOutcome.succeed o) ∨
    (∃ m, (handleParseJson (Except.ok (Json.bool true))).outcome = HPJOutcome.fail m) :=
  handleParseJson_single_continuation (Except.ok (Json.bool true))
    (fun h => Json.noConfusion (Except.ok.inj h))

/-- C8: the BOM dispatch of `handleParseJson`.  Assuming only that the
underlying parser signals an input beginning with a byte-order mark through
a failure message starting with
`Unexpected token ﻿ in JSON at position 0` (the V8 signature the code
tests for at `run.js:182`), such an input fails with the specific BOM
message; and every parse-failure message not starting with that signature
fails with the generic message wrapping the stringified error. -/
theorem handleParseJson_bom_detection (s : String) (r : Except String Json) (m2 : String)
    (hparser : strStartsWith s "﻿" = true →
      ∃ m, r = Except.error m ∧ strStartsWith m bomSignature = true)
    (hbom : strStartsWith s "﻿" = true)
    (hother : strStartsWith m2 bomSignature = false) :
    handleParseJson r = ⟨HPJOutcome.fail bomMessage, []⟩ ∧
    handleParseJson (Except.error m2) =
      ⟨HPJOutcome.fail ("Unable to parse json" ++ jsErrorString m2), []⟩ := by
  obtain ⟨m, rfl, hm⟩ := hparser hbom
  refine ⟨?_, ?_⟩
  · simp [handleParseJson, hm]
  · simp [handleParseJson, hother]

/-- C8 witness: the theorem applied at a concrete BOM-led input whose parse
failure carries exactly the signature, and at the concrete non-BOM failure
message of a truncated document. -/
theorem handleParseJson_bom_detection_witness :
    handleParseJson (Except.error bomSignature) = ⟨HPJOutcome.fail bomMessage, []⟩ ∧
    handleParseJson (Except.error "Unexpected end of JSON input") =
      ⟨HPJOutcome.fail ("Unable to parse json" ++
        jsErrorString "Unexpected end of JSON input"), []⟩ :=
  handleParseJson_bom_detection "﻿[]" (Except.error bomSignature)
    "Unexpected end of JSON input"
    (fun _ => ⟨bomSignature, rfl, by decide⟩) (by decide) (by decide)

/-- The manifest of the C6 counterexample: one entry whose `relation` is
the empty array, with a fully well-formed web target. -/
def emptyRelationManifest : Json :=
  Json.arr [Json.obj [("relation", Json.arr []),
    ("target", Json.obj [("namespace", Json.str "web"),
                         ("site", Json.str "https://example.com")])]]

/-- C6 counterexample: a manifest containing an entry whose `relation` is
an empty array is not rejected by validation — `SCHEMA_RELATION` carries no
minimum-length keyword, so the schema check collects no error and
`handleParseJson` invokes the success continuation. -/
theorem empty_relation_passes_validation :
    validateBase emptyRelationManifest [] = [] ∧
    (handleParseJson (Except.ok emptyRelationManifest)).outcome =
      HPJOutcome.succeed emptyRelationManifest :=
  ⟨rfl, rfl⟩

/-- C6 (amended): schema validation accepts an empty `relation` array (the
`/RelationEntity` schema demands an array of strings but no minimum
length); the empty relation is instead rejected at interpretation time —
the `AssetRelation` constructor throws `No relation data`, so
`displayAssociations` skips the entry rather than the manifest being
rejected. -/
theorem empty_relation_schema_vs_interpreter :
    (∀ pre, validateRelationEntity (Json.arr []) pre = []) ∧
    (∀ fields, lookupField fields "relation" = some (Json.arr []) →
      interpretEntry (Json.obj fields) = Except.error "Error: No relation data") := by
  refine ⟨fun pre => rfl, fun fields hf => ?_⟩
  simp [interpretEntry, interpretEntryFields, hf, relLengthLtOne]

/-- C6 witness: the amended theorem applied to the concrete entry of the
counterexample manifest. -/
theorem empty_relation_schema_vs_interpreter_witness :
    interpretEntry (Json.obj [("relation", Json.arr []),
      ("target", Json.obj [("namespace", Json.str "web"),
                           ("site", Json.str "https://example.com")])]) =
      Except.error "Error: No relation data" :=
  empty_relation_schema_vs_interpreter.2 _ rfl

/-- C7: on a parsed document with at least one top-level key,
`handleParseJson` validates against `/Base` and either prints every
collected error as a `<path>: <message>` line and fails with
`Errors validating schema` (when at least one structural error exists), or
invokes the success continuation with the parsed structure (exactly when
the error list is empty). -/
theorem handleParseJson_schema_errors (obj : Json) (n : Nat)
    (hk : jsObjectKeysCount obj = Except.ok n) (hn : 1 ≤ n) :
    handleParseJson (Except.ok obj) =
      if 0 < (validateBase obj []).length then
        ⟨HPJOutcome.fail "Errors validating schema", (validateBase obj []).map renderVError⟩
      else ⟨HPJOutcome.succeed obj, []⟩ := by
  simp only [handleParseJson, hk]
  rw [if_neg (by omega)]

/-- C7 witness: the theorem applied to a concrete one-entry manifest whose
target matches neither `oneOf` alternative, yielding the single collected
error line and the schema failure. -/
theorem handleParseJson_schema_errors_witness :
    handleParseJson (Except.ok (Json.arr [Json.obj
        [("relation", Json.arr [Json.str "x"]),
         ("target", Json.obj [("namespace", Json.str "foo")])]])) =
      ⟨HPJOutcome.fail "Errors validating schema",
       ["instance[0].target: is not exactly one from [subschema 0],[subschema 1]"]⟩ :=
  (handleParseJson_schema_errors (Json.arr [Json.obj
      [("relation", Json.arr [Json.str "x"]),
       ("target", Json.obj [("namespace", Json.str "foo")])]]) 1 rfl (by decide)).trans
    rfl

/-- Characterization of the presentation decision over arbitrary bucket
contents: Smart Lock appears exactly when both credential buckets are
non-empty; the full App Links block exactly when both link buckets are
non-empty; the android-only App Links block exactly when only the android
link bucket is non-empty; `No relations to display` exactly when the
Smart Lock condition failed and the android link bucket is empty. -/
theorem decideReport_mem_characterization (hn : Option String) (b : Buckets) :
    ((ReportItem.smartLock b.credsWeb b.credsAndroid ∈ decideReport hn b) ↔
      (b.credsWeb ≠ [] ∧ b.credsAndroid ≠ [])) ∧
    ((ReportItem.appLinks b.linksWeb b.linksAndroid ∈ decideReport hn b) ↔
      (b.linksWeb ≠ [] ∧ b.linksAndroid ≠ [])) ∧
    ((ReportItem.appLinksCurrent hn b.linksAndroid ∈ decideReport hn b) ↔
      (b.linksWeb = [] ∧ b.linksAndroid ≠ [])) ∧
    ((ReportItem.noRelations ∈ decideReport hn b) ↔
      ((b.credsWeb = [] ∨ b.credsAndroid = []) ∧ b.linksAndroid = [])) := by
  obtain ⟨cw, ca, lw, la⟩ := b
  by_cases h1 : cw = [] <;> by_cases h2 : ca = [] <;>
    by_cases h3 : lw = [] <;> by_cases h4 : la = [] <;>
      simp_all [decideReport, List.length_pos]

/-- C2: the report decision of `displayAssociations` over any sequence of
entries.  Writing `b` for the buckets the loop fills: the Smart Lock block
is reported iff both credential buckets are non-empty; independently, the
full App Links block is reported iff both link buckets are non-empty, and
the android-only App Links block (current-website label in place of a web
list) is reported iff the android link bucket alone is non-empty; the
`No relations to display` message is reported iff none of these conditions
held. -/
theorem displayAssociations_report_decision (hn : Option String) (entries : List Json) :
    ((ReportItem.smartLock (processEntries entries).1.credsWeb
        (processEntries entries).1.credsAndroid ∈ (displayAssociations hn entries).1) ↔
      ((processEntries entries).1.credsWeb ≠ [] ∧
       (processEntries entries).1.credsAndroid ≠ [])) ∧
    ((ReportItem.appLinks (processEntries entries).1.linksWeb
        (processEntries entries).1.linksAndroid ∈ (displayAssociations hn entries).1) ↔
      ((processEntries entries).1.linksWeb ≠ [] ∧
       (processEntries entries).1.linksAndroid ≠ [])) ∧
    ((ReportItem.appLinksCurrent hn (processEntries entries).1.linksAndroid ∈
        (displayAssociations hn entries).1) ↔
      ((processEntries entries).1.linksWeb = [] ∧
       (processEntries entries).1.linksAndroid ≠ [])) ∧
    ((ReportItem.noRelations ∈ (displayAssociations hn entries).1) ↔
      (((processEntries entries).1.credsWeb = [] ∨
        (processEntries entries).1.credsAndroid = []) ∧
       (processEntries entries).1.linksAndroid = [])) := by
  have h := decideReport_mem_characterization hn (processEntries entries).1
  simpa [displayAssociations] using h

/-- Loop-effect concatenation is associative. -/
theorem combineEffects_assoc (a b c : Buckets × List String) :
    combineEffects (combineEffects a b) c = combineEffects a (combineEffects b c) := by
  simp [combineEffects, List.append_assoc]

/-- The bucket-filling loop splits over concatenation of the entry list. -/
theorem processEntries_append (l1 l2 : List Json) :
    processEntries (l1 ++ l2) = combineEffects (processEntries l1) (processEntries l2) := by
  induction l1 with
  | nil =>
    show processEntries l2 = combineEffects (emptyBuckets, []) (processEntries l2)
    rfl
  | cons e rest ih =>
    show combineEffects (entryContribution e) (processEntries (rest ++ l2)) = _
    rw [ih, ← combineEffects_assoc]
    rfl

/-- C4: partial-failure semantics of the `displayAssociations` loop.  If
interpreting one entry fails (with any thrown error `m`), that entry is
skipped: the buckets equal those of the same manifest without the entry,
the error log gains exactly the single `[entry] `-prefixed line for it (in
position), and the displayed report is the one decided from the remaining
entries alone — every other entry still contributes. -/
theorem entry_failure_skips_only_that_entry (hn : Option String)
    (pre post : List Json) (e : Json) (m : String)
    (hm : interpretEntry e = Except.error m) :
    (processEntries (pre ++ e :: post)).1 = (processEntries (pre ++ post)).1 ∧
    (processEntries (pre ++ e :: post)).2 =
      (processEntries pre).2 ++ ("[entry] " ++ m) :: (processEntries post).2 ∧
    (displayAssociations hn (pre ++ e :: post)).1 =
      decideReport hn (processEntries (pre ++ post)).1 := by
  have h1 : processEntries (pre ++ e :: post) =
      combineEffects (processEntries pre)
        (combineEffects (emptyBuckets, ["[entry] " ++ m]) (processEntries post)) := by
    rw [processEntries_append]
    have h2 : processEntries (e :: post) =
        combineEffects (emptyBuckets, ["[entry] " ++ m]) (processEntries post) := by
      show combineEffects (entryContribution e) (processEntries post) = _
      rw [entryContribution, hm]
    rw [h2]
  have h3 : processEntries (pre ++ post) =
      combineEffects (processEntries pre) (processEntries post) :=
    processEntries_append _ _
  refine ⟨?_, ?_, ?_⟩
  · rw [h1, h3]; simp [combineEffects, emptyBuckets]
  · rw [h1]; simp [combineEffects, emptyBuckets]
  · show decideReport hn (processEntries (pre ++ e :: post)).1 = _
    rw [h1, h3]; simp [combineEffects, emptyBuckets]

/-- The well-formed android entry of the C4 witness. -/
def c4GoodEntry : Json :=
  Json.obj [("relation", Json.arr [Json.str "delegate_permission/common.handle_all_urls"]),
            ("target", Json.obj [("namespace", Json.str "android_app"),
                                 ("package_name", Json.str "com.example.app"),
                                 ("sha256_cert_fingerprints", Json.arr [Json.str "AA:BB"])])]

/-- The failing entry of the C4 witness: `target.namespace` is `web` but
the target lacks `site`, so interpretation throws
`Missing site from target`. -/
def c4BadEntry : Json :=
  Json.obj [("relation", Json.arr [Json.str "delegate_permission/common.handle_all_urls"]),
            ("target", Json.obj [("namespace", Json.str "web")])]

/-- C4 witness: the theorem applied to the concrete manifest
`[c4GoodEntry, c4BadEntry]`, whose second entry fails with
`Missing site from target` and is alone skipped and logged, while the
sibling android entry still determines the report. -/
theorem entry_failure_skips_only_that_entry_witness :
    (processEntries [c4GoodEntry, c4BadEntry]).1 = (processEntries [c4GoodEntry]).1 ∧
    (processEntries [c4GoodEntry, c4BadEntry]).2 =
      (processEntries [c4GoodEntry]).2 ++
        ("[entry] " ++ "Error: Missing site from target") :: (processEntries []).2 ∧
    (displayAssociations none [c4GoodEntry, c4BadEntry]).1 =
      decideReport none (processEntries [c4GoodEntry]).1 :=
  entry_failure_skips_only_that_entry none [c4GoodEntry] [] c4BadEntry
    "Error: Missing site from target" rfl

/-- The Boolean test selecting errors whose property path is
`instance[i].target`. -/
def isTargetErrAt (i : Nat) (e : VError) : Bool :=
  decide (e.path = [PathStep.idx i, PathStep.prop "target"])

/-- Every error collected by an `items: {type: "string"}` keyword sits
strictly below the keyword's own path. -/
theorem validateStrItems_path (pre : List PathStep) (l : List Json) (k : Nat) :
    ∀ e ∈ validateStrItems pre l k, ∃ rest, e.path = pre ++ rest := by
  induction l generalizing k with
  | nil => simp [validateStrItems]
  | cons x rest ih =>
    intro e he
    rcases List.mem_append.1 he with h | h
    · refine ⟨[PathStep.idx k], ?_⟩
      cases x <;> simp_all [validateStrItems]
    · exact ih (k + 1) e h

/-- Every error collected by `/RelationEntity` sits at or below the
validated value's path. -/
theorem validateRelationEntity_path (v : Json) (pre : List PathStep) :
    ∀ e ∈ validateRelationEntity v pre, ∃ rest, e.path = pre ++ rest := by
  intro e he
  cases v with
  | arr l =>
    simp only [validateRelationEntity, List.nil_append] at he
    exact validateStrItems_path pre l 0 e he
  | null => exact ⟨[], by simp_all [validateRelationEntity]⟩
  | bool b => exact ⟨[], by simp_all [validateRelationEntity]⟩
  | num n => exact ⟨[], by simp_all [validateRelationEntity]⟩
  | str s => exact ⟨[], by simp_all [validateRelationEntity]⟩
  | obj fs => exact ⟨[], by simp_all [validateRelationEntity]⟩

/-- Every error collected by `/BaseEntity` sits at or below the validated
entry's path. -/
theorem validateBaseEntity_path (v : Json) (pre : List PathStep) :
    ∀ e ∈ validateBaseEntity v pre, ∃ rest, e.path = pre ++ rest := by
  intro e he
  cases v with
  | obj fields =>
    simp only [validateBaseEntity, List.nil_append, List.mem_append] at he
    rcases he with h | h
    · cases hrel : lookupField fields "relation" with
      | none => rw [hrel] at h; simp at h
      | some r =>
        rw [hrel] at h
        obtain ⟨rest, hr⟩ :=
          validateRelationEntity_path r (pre ++ [PathStep.prop "relation"]) e h
        exact ⟨[PathStep.prop "relation"] ++ rest, by rw [hr, List.append_assoc]⟩
    · cases htg : lookupField fields "target" with
      | none =>
        simp only [htg] at h
        refine ⟨[PathStep.prop "target"], ?_⟩
        simp_all
      | some t =>
        simp only [htg] at h
        by_cases hc : oneOfTargetCount t != 1
        · rw [if_pos hc] at h
          refine ⟨[PathStep.prop "target"], ?_⟩
          simp_all
        · rw [if_neg hc] at h
          simp at h
  | null => exact ⟨[], by simp_all [validateBaseEntity]⟩
  | bool b => exact ⟨[], by simp_all [validateBaseEntity]⟩
  | num n => exact ⟨[], by simp_all [validateBaseEntity]⟩
  | str s => exact ⟨[], by simp_all [validateBaseEntity]⟩
  | arr l => exact ⟨[], by simp_all [validateBaseEntity]⟩

/-- An entry validated at index `j` contributes no error at the target path
of a different index `i`. -/
theorem countP_validateBaseEntity_ne (v : Json) {i j : Nat} (hne : j ≠ i) :
    (validateBaseEntity v [PathStep.idx j]).countP (isTargetErrAt i) = 0 := by
  rw [List.countP_eq_zero]
  intro e he
  obtain ⟨rest, hp⟩ := validateBaseEntity_path v [PathStep.idx j] e he
  simp only [isTargetErrAt, hp, decide_eq_true_iff]
  rw [List.singleton_append]
  intro h
  injection h with h1 h2
  injection h1 with h1
  exact hne h1

/-- An object entry at index `i` whose `target` value matches zero or both
`oneOf` alternatives contributes exactly one error at path
`instance[i].target`. -/
theorem countP_validateBaseEntity_self (fields : List (String × Json)) (t : Json) (i : Nat)
    (ht : lookupField fields "target" = some t) (hc : oneOfTargetCount t ≠ 1) :
    (validateBaseEntity (Json.obj fields) [PathStep.idx i]).countP (isTargetErrAt i) = 1 := by
  have hrel0 : ((match lookupField fields "relation" with
      | some r => validateRelationEntity r ([PathStep.idx i] ++ [PathStep.prop "relation"])
      | none => ([] : List VError))).countP (isTargetErrAt i) = 0 := by
    cases hrel : lookupField fields "relation" with
    | none => simp
    | some r =>
      simp only []
      rw [List.countP_eq_zero]
      intro e he
      obtain ⟨rest, hp⟩ :=
        validateRelationEntity_path r ([PathStep.idx i] ++ [PathStep.prop "relation"]) e he
      simp only [isTargetErrAt, hp, decide_eq_true_iff]
      intro h
      rw [List.append_assoc, List.singleton_append] at h
      injection h with h1 h2
      rw [List.singleton_append] at h2
      injection h2 with h2 h3
      injection h2 with h2
      exact absurd h2 (by decide)
  simp only [validateBaseEntity, List.nil_append, ht]
  rw [List.countP_append, hrel0]
  rw [if_pos (by simpa [bne_iff_ne] using hc)]
  simp [isTargetErrAt]

/-- The `items` traversal of `/Base` splits over concatenation, the second
half starting at the shifted index. -/
theorem validateBaseItems_append (pre : List PathStep) (l1 l2 : List Json) (k : Nat) :
    validateBaseItems pre (l1 ++ l2) k =
      validateBaseItems pre l1 k ++ validateBaseItems pre l2 (k + l1.length) := by
  induction l1 generalizing k with
  | nil => simp [validateBaseItems]
  | cons x rest ih =>
    have hk : k + 1 + rest.length = k + (rest.length + 1) := by omega
    simp only [List.cons_append, validateBaseItems, List.append_eq, ih,
      List.append_assoc, List.length_cons, hk]

/-- Entries indexed strictly below `i` contribute no error at the target
path of index `i`. -/
theorem countP_validateBaseItems_lowIdx (i : Nat) (l : List Json) (k : Nat)
    (h : k + l.length ≤ i) :
    (validateBaseItems [] l k).countP (isTargetErrAt i) = 0 := by
  induction l generalizing k with
  | nil => simp [validateBaseItems]
  | cons x rest ih =>
    simp only [validateBaseItems, List.countP_append, List.nil_append]
    rw [countP_validateBaseEntity_ne x (i := i) (j := k) (by simp at h; omega),
        ih (k + 1) (by simp at h; omega)]

/-- Entries indexed strictly above `i` contribute no error at the target
path of index `i`. -/
theorem countP_validateBaseItems_highIdx (i : Nat) (l : List Json) (k : Nat)
    (h : i < k) :
    (validateBaseItems [] l k).countP (isTargetErrAt i) = 0 := by
  induction l generalizing k with
  | nil => simp [validateBaseItems]
  | cons x rest ih =>
    simp only [validateBaseItems, List.countP_append, List.nil_append]
    rw [countP_validateBaseEntity_ne x (i := i) (j := k) (by omega),
        ih (k + 1) (by omega)]

/-- C1: for every manifest containing an entry whose `target` value
matches zero or both of the `/WebTarget` and `/AndroidTarget` alternatives
(the `oneOf` combinator is an exclusive-or), schema validation fails, it
collects exactly one error whose property path is `instance[i].target` for
that entry, and the validate step of `handleParseJson` fails with
`Errors validating schema`. -/
theorem target_oneOf_exactly_one_error (pre post : List Json)
    (fields : List (String × Json)) (t : Json)
    (ht : lookupField fields "target" = some t)
    (hc : oneOfTargetCount t ≠ 1) :
    validateBase (Json.arr (pre ++ Json.obj fields :: post)) [] ≠ [] ∧
    (validateBase (Json.arr (pre ++ Json.obj fields :: post)) []).countP
      (isTargetErrAt pre.length) = 1 ∧
    (handleParseJson (Except.ok (Json.arr (pre ++ Json.obj fields :: post)))).outcome =
      HPJOutcome.fail "Errors validating schema" := by
  have hcount : (validateBase (Json.arr (pre ++ Json.obj fields :: post)) []).countP
      (isTargetErrAt pre.length) = 1 := by
    simp only [validateBase, List.nil_append]
    rw [validateBaseItems_append, List.countP_append,
        countP_validateBaseItems_lowIdx pre.length pre 0 (by omega)]
    simp only [validateBaseItems, List.countP_append, List.nil_append, Nat.zero_add]
    rw [countP_validateBaseEntity_self fields t pre.length ht hc,
        countP_validateBaseItems_highIdx pre.length post (pre.length + 1) (by omega)]
  refine ⟨?_, hcount, ?_⟩
  · intro hnil
    rw [hnil] at hcount
    simp at hcount
  · have hlen : 0 < (validateBase (Json.arr (pre ++ Json.obj fields :: post)) []).length := by
      have hle := List.countP_le_length (isTargetErrAt pre.length)
        (l := validateBase (Json.arr (pre ++ Json.obj fields :: post)) [])
      omega
    simp only [handleParseJson, jsObjectKeysCount]
    rw [if_neg (by simp), if_pos hlen]

/-- The fields of the C1 witness entry: a well-formed relation and a target
whose `namespace` is the unknown literal `foo`, matching neither `oneOf`
alternative. -/
def c1Fields : List (String × Json) :=
  [("relation", Json.arr [Json.str "delegate_permission/common.get_login_creds"]),
   ("target", Json.obj [("namespace", Json.str "foo")])]

/-- C1 witness: the theorem applied to the concrete one-entry manifest
whose target matches neither alternative. -/
theorem target_oneOf_exactly_one_error_witness :
    validateBase (Json.arr [Json.obj c1Fields]) [] ≠ [] ∧
    (validateBase (Json.arr [Json.obj c1Fields]) []).countP (isTargetErrAt 0) = 1 ∧
    (handleParseJson (Except.ok (Json.arr [Json.obj c1Fields]))).outcome =
      HPJOutcome.fail "Errors validating schema" :=
  target_oneOf_exactly_one_error [] [] c1Fields (Json.obj [("namespace", Json.str "foo")])
    rfl (by decide)
